import Mathlib

/-!
Shallow embedding of the block-based deque of this repository
(`src/unnamed/part_000`, the complete variant, and `src/deque.h`, a
near-duplicate whose index helpers differ and whose mutators are stubs).

Modelling conventions:
* The element type `T` is instantiated at `Nat` (the repository's tests use
  `int`; `int` arithmetic never overflows in the scenarios the claims cover,
  and destructors of `int` are trivial, so `alloc.destroy` is a no-op on the
  model state).
* `T** data` becomes `List (Option (List Nat))`: a block pointer is either
  `none` (nullptr) or `some` block of cells.
* Reads and writes through a null or out-of-range block pointer are undefined
  behaviour in C++; the model makes every such operation return `none`
  (`Option`-valued operations).  A failed `assert` is likewise `none`.
* `iaFront` is an `int` in the source but is provably non-negative in every
  state the implemented operations produce, so it is modelled as `Nat`;
  `(iaFront - 1 + numBlocks * numCells)` in `push_front` mixes `int` and
  `size_t`, which in C++ wraps to `iaFront + total - 1` for `iaFront ≥ 0`,
  and is transcribed as such.
-/

namespace custom

/-- State of `custom::deque<int>`: the five data members of the class
(`src/unnamed/part_000` lines 141-146). `alloc` is stateless and omitted. -/
structure Deque where
  numCells : Nat
  numBlocks : Nat
  numElements : Nat
  iaFront : Nat
  data : List (Option (List Nat))
deriving DecidableEq, Repr

/-- The default constructor (line 43):
`alloc(a), numCells(16), numBlocks(0), numElements(0), iaFront(0), data(nullptr)`. -/
def empty0 : Deque := ⟨16, 0, 0, 0, []⟩

/-- `iaFromID` (lines 121-124): `(iaFront + id) % (numCells * numBlocks)`. -/
def iaFromID (d : Deque) (id : Nat) : Nat :=
  (d.iaFront + id) % (d.numCells * d.numBlocks)

/-- `ibFromID` (lines 127-130): `iaFromID(id) / numCells`. -/
def ibFromID (d : Deque) (id : Nat) : Nat :=
  iaFromID d id / d.numCells

/-- `icFromID` (lines 133-136): `iaFromID(id) % numCells`. -/
def icFromID (d : Deque) (id : Nat) : Nat :=
  iaFromID d id % d.numCells

/-- Reading the raw cell `data[ib][ic]`; `none` when the block pointer is
null or either index is out of range (undefined behaviour in the source). -/
def readCell (d : Deque) (ib ic : Nat) : Option Nat :=
  match d.data.get? ib with
  | some (some blk) => blk.get? ic
  | _ => none

/-- Writing the raw cell `data[ib][ic] = v`; `none` when the block pointer is
null or either index is out of range (undefined behaviour in the source). -/
def writeCell (d : Deque) (ib ic : Nat) (v : Nat) : Option Deque :=
  match d.data.get? ib with
  | some (some blk) =>
      if ic < blk.length then
        some { d with data := d.data.set ib (some (blk.set ic v)) }
      else none
  | _ => none

/-- `operator[](id)` (lines 89-96): `data[ibFromID(id)][icFromID(id)]`. -/
def getAt (d : Deque) (id : Nat) : Option Nat :=
  readCell d (ibFromID d id) (icFromID d id)

/-- `front()` (lines 73-80): `data[ibFromID(0)][icFromID(0)]`. -/
def frontVal (d : Deque) : Option Nat :=
  readCell d (ibFromID d 0) (icFromID d 0)

/-- `back()` (lines 81-88): `data[ibFromID(numElements-1)][icFromID(numElements-1)]`. -/
def backVal (d : Deque) : Option Nat :=
  readCell d (ibFromID d (d.numElements - 1)) (icFromID d (d.numElements - 1))

/-- `size()` (line 116). -/
def size (d : Deque) : Nat := d.numElements

/-- `reallocate(numBlocksNew)` (`src/unnamed/part_000` lines 435-478).
Transcription notes, wholly from the source:
* the `assert(numBlocksNew > 0 && numBlocksNew > numElements)` aborts
  (`none`) when false;
* the pointer-unwrapping loop `for (int idOld = 0; idOld > numElements;
  idOld + numCells)` never executes: its guard `0 > numElements` is false at
  entry (and its step expression assigns nothing), so `ibNew` stays `0` and
  the null-fill loop makes every entry of `dataNew` null;
* the migration branch runs when `numElements > 0` and logical index `0` and
  `numElements - 1` share a block and a cell; it sets
  `dataNew[numElements / numCells] = new T(numCells)` — a single `T` holding
  the value `numCells`, modelled as the one-cell block `[numCells]` — and its
  inner move loop `for (int ic = 0; ic > icFromID(numElements-1); ic++)`
  never executes (guard false at entry);
* finally `data = dataNew; numBlocks = numBlocksNew; iaFront = iaFront % numCells`. -/
def reallocate (d : Deque) (numBlocksNew : Nat) : Option Deque :=
  if 0 < numBlocksNew ∧ d.numElements < numBlocksNew then
    let base : List (Option (List Nat)) := List.replicate numBlocksNew none
    let dataNew :=
      if 0 < d.numElements ∧
         ibFromID d 0 = ibFromID d (d.numElements - 1) ∧
         icFromID d 0 = icFromID d (d.numElements - 1) then
        base.set (d.numElements / d.numCells) (some [d.numCells])
      else base
    some { d with data := dataNew, numBlocks := numBlocksNew,
                  iaFront := d.iaFront % d.numCells }
  else none

/-- `push_front` (lines 318-326 for the copy overload; the move overload,
lines 334-342, performs the identical state change for a scalar `T`):
grow when full, then `iaFront = (iaFront - 1 + numBlocks*numCells) %
(numBlocks*numCells)` and `data[ibFromID(0)][icFromID(0)] = t;
++numElements`.  A zero total cell count makes the `%` undefined behaviour
(`none`). -/
def push_front (d : Deque) (t : Nat) : Option Deque :=
  (if d.numElements = d.numBlocks * d.numCells then
      reallocate d (d.numBlocks + 1)
    else some d).bind fun d1 =>
    let total := d1.numBlocks * d1.numCells
    if total = 0 then none
    else
      let d2 := { d1 with iaFront := (d1.iaFront + total - 1) % total }
      (writeCell d2 (ibFromID d2 0) (icFromID d2 0) t).map fun d3 =>
        { d3 with numElements := d3.numElements + 1 }

/-- `push_back` (lines 299-311): both overloads have an empty body in both
source files — the state is returned unchanged. -/
def push_back (d : Deque) (t : Nat) : Deque := d

/-- `pop_front` (lines 374-407).  Transcription notes:
* `assert(numElements > 0)` aborts (`none`) on an empty deque;
* `alloc.destroy` of a scalar is a no-op on the state;
* the `blockEmpty` scan tests `&data[ibFromID(0)][ic] != nullptr` — the
  address of a cell, never null — so `blockEmpty` survives as `true` only
  when the loop body never runs, i.e. when `numCells == 0`;
* when `numElements == 1`, `iaFront` is set to `0` first and only then is
  `data[ibFromID(idRemove)]` nulled, so block `0` is the one nulled;
* finally `iaFront = (iaFront + 1) % numCells` when `numBlocks == 1`, and a
  plain unwrapped `iaFront++` otherwise; `--numElements`. -/
def pop_front (d : Deque) : Option Deque :=
  if d.numElements = 0 then none
  else
    let d1 := if d.numCells = 0 then { d with data := d.data.set (ibFromID d 0) none }
              else d
    let d2 :=
      if d1.numElements = 1 then
        let d1' := { d1 with iaFront := 0 }
        { d1' with data := d1'.data.set (ibFromID d1' 0) none }
      else d1
    let d3 :=
      if d2.numBlocks = 1 then { d2 with iaFront := (d2.iaFront + 1) % d2.numCells }
      else { d2 with iaFront := d2.iaFront + 1 }
    some { d3 with numElements := d3.numElements - 1 }

/-- `pop_back` (`src/unnamed/part_000` lines 414-427):
destroy the last element (a no-op for scalar `T`), null the block
`ibFromID(numElements-1)` when `numElements == 1` or when that element sat
at cell `0` of a block other than the front's, then `--numElements`. -/
def pop_back (d : Deque) : Option Deque :=
  if d.numElements = 0 then none
  else
    let idR := d.numElements - 1
    let d1 :=
      if d.numElements = 1 ∨ (icFromID d idR = 0 ∧ ibFromID d idR ≠ ibFromID d 0) then
        { d with data := d.data.set (ibFromID d idR) none }
      else d
    some { d1 with numElements := d1.numElements - 1 }

/-- The block-nulling loop of `clear` (lines 358-364): `for (ib = 0;
ib < numBlocks; ++ib) data[ib] = nullptr` (the `!= nullptr` test only skips
writes that would store the value already present). `nullBlocks n l` is the
state of the array after the iterations `ib = 0 .. n-1`. -/
def nullBlocks : Nat → List (Option (List Nat)) → List (Option (List Nat))
  | 0, l => l
  | n + 1, l => (nullBlocks n l).set n none

/-- `clear` (`src/unnamed/part_000` lines 349-367): destroy every live
element (a no-op for scalar `T`), null every block pointer, and reset
`numElements` to `0`.  `iaFront`, `numBlocks` and `numCells` are untouched. -/
def clear (d : Deque) : Deque :=
  { d with data := nullBlocks d.numBlocks d.data, numElements := 0 }

/-- Writing through `operator[]`: `*itLHS = value` in `operator=` stores
through the reference `data[ibFromID(id)][icFromID(id)]`. -/
def writeAt (d : Deque) (id : Nat) (v : Nat) : Option Deque :=
  writeCell d (ibFromID d id) (icFromID d id) v

/-- The first loop of `operator=` (lines 270-275): while both iterators are
short of their ends, `*itLHS = *itRHS` and advance both.  `k` is the number
of iterations left, `i` the current iterator index. -/
def copyLoop (rhs : Deque) : Deque → Nat → Nat → Option Deque
  | lhs, _, 0 => some lhs
  | lhs, i, k + 1 =>
      (getAt rhs i).bind fun v =>
      (writeAt lhs i v).bind fun lhs' =>
      copyLoop rhs lhs' (i + 1) k

/-- The second loop of `operator=` (lines 278-282): while the right iterator
is short of its end, `push_back(*itRHS)` — a read of `rhs` followed by the
`push_back` stub — and advance. -/
def pushLoop (rhs : Deque) : Deque → Nat → Nat → Option Deque
  | lhs, _, 0 => some lhs
  | lhs, i, k + 1 =>
      (getAt rhs i).bind fun v =>
      pushLoop rhs (push_back lhs v) (i + 1) k

/-- `operator=` (`src/unnamed/part_000` lines 263-293): the two loops above
(the first runs `min` of the two sizes times, since neither loop changes
either `numElements`), then `numElements = rhs.numElements; iaFront =
rhs.iaFront` (the other member assignments are commented out in the source). -/
def assign (lhs rhs : Deque) : Option Deque :=
  let n := min lhs.numElements rhs.numElements
  (copyLoop rhs lhs 0 n).bind fun lhs1 =>
  (pushLoop rhs lhs1 n (rhs.numElements - n)).map fun lhs2 =>
  { lhs2 with numElements := rhs.numElements, iaFront := rhs.iaFront }

/-- `deque::iterator` (lines 160-242): a logical index (`int id`) and a
back-reference to the deque.  The pointer `deque* d` is modelled by storing
the deque value (no operation below mutates the deque while iterating). -/
structure Iter where
  id : Int
  dq : Deque
deriving DecidableEq, Repr

/-- `begin()` (lines 61-64): `iterator(0, this)`. -/
def beginIt (d : Deque) : Iter := ⟨0, d⟩

/-- `end()` (lines 65-68): `iterator(numElements, this)`. -/
def endIt (d : Deque) : Iter := ⟨(d.numElements : Int), d⟩

/-- `operator==` (line 194): compares only the index. -/
def iterEq (a b : Iter) : Prop := a.id = b.id

instance (a b : Iter) : Decidable (iterEq a b) := by
  unfold iterEq; infer_instance

/-- `operator-` (lines 207-210): `id - it.id`. -/
def iterSub (a b : Iter) : Int := a.id - b.id

/-- Prefix `operator++` (lines 216-220): `++id`. -/
def iterInc (a : Iter) : Iter := { a with id := a.id + 1 }

/-- `k` applications of `operator++`. -/
def incN (a : Iter) : Nat → Iter
  | 0 => a
  | k + 1 => iterInc (incN a k)

/-- `operator*` (lines 199-202): `d->operator[](id)`.  A negative index is
outside the operator's contract; the model returns `none` there. -/
def iterDeref (a : Iter) : Option Nat :=
  if 0 ≤ a.id then getAt a.dq a.id.toNat else none

/-- Deque states reachable through the public interface of
`src/unnamed/part_000`, starting from the default constructor: a successful
result of any implemented mutating operation on a reachable state is
reachable.  (The copy constructor of `part_000` runs `operator=` on wholly
uninitialized members — undefined behaviour with no determinate state — and
so contributes no reachable states.) -/
inductive Reachable : Deque → Prop where
  | init : Reachable empty0
  | pushF {s s' : Deque} (t : Nat) : Reachable s → push_front s t = some s' → Reachable s'
  | pushB {s : Deque} (t : Nat) : Reachable s → Reachable (push_back s t)
  | popF {s s' : Deque} : Reachable s → pop_front s = some s' → Reachable s'
  | popB {s s' : Deque} : Reachable s → pop_back s = some s' → Reachable s'
  | clearR {s : Deque} : Reachable s → Reachable (clear s)
  | assignR {s r s' : Deque} : Reachable s → Reachable r → assign s r = some s' → Reachable s'

end custom

namespace customH

/-- `iaFromID` of `src/deque.h` (lines 121-124): `(iaFront + id) % numCells`
— the modulus is `numCells` alone, unlike `part_000`. -/
def iaFromID (d : custom.Deque) (id : Nat) : Nat :=
  (d.iaFront + id) % d.numCells

/-- `ibFromID` of `src/deque.h` (lines 127-130): `(iaFront + id) / numCells`
— no wraparound by the total cell count. -/
def ibFromID (d : custom.Deque) (id : Nat) : Nat :=
  (d.iaFront + id) / d.numCells

/-- `icFromID` of `src/deque.h` (lines 133-136): `(iaFront + id) % numCells`. -/
def icFromID (d : custom.Deque) (id : Nat) : Nat :=
  (d.iaFront + id) % d.numCells

/-- `pop_back` of `src/deque.h` (lines 338-343): assert non-empty, destroy
the last element (no-op for scalar `T`), `--numElements`; nothing else. -/
def pop_back (d : custom.Deque) : Option custom.Deque :=
  if d.numElements = 0 then none
  else some { d with numElements := d.numElements - 1 }

end customH

/-!
## Theorems settling the claims
-/

/-- C2 (refuting the code): `push_front` on a freshly constructed deque must
prepend the value, but the growth path leaves every block pointer null (the
pointer-carrying loop of `reallocate` never executes and no block is
allocated for the insert), so the write `data[ibFromID(0)][icFromID(0)] = t`
dereferences a null block pointer — modelled as `none`. -/
theorem c2_push_front_from_empty_fails :
    custom.push_front custom.empty0 42 = none := by decide

/-- C3 (refuting the code): `reallocate` must preserve the logical sequence,
but on the one-element deque `⟨numCells 2, 1 block, 1 element, iaFront 0,
block [5,9]⟩` growing to 2 blocks yields a deque whose logical element 0
reads as `2` (the value `numCells`, from `new T(numCells)` in the migration
branch) instead of `5`; the carried-over-pointer loop never ran. -/
theorem c3_reallocate_loses_elements :
    custom.reallocate ⟨2, 1, 1, 0, [some [5, 9]]⟩ 2
        = some ⟨2, 2, 1, 0, [some [2], none]⟩
    ∧ custom.getAt ⟨2, 1, 1, 0, [some [5, 9]]⟩ 0 = some 5
    ∧ custom.getAt ⟨2, 2, 1, 0, [some [2], none]⟩ 0 = some 2 := by decide

/-- C4 (refuting the code): on a two-block deque (`numCells 2`,
`iaFront 3`, two elements), `pop_front` takes the multi-block branch
`iaFront++` and leaves `iaFront = 4`, not the claimed
`(3 + 1) % (2*2) = 0` — the advance is not wrapped modulo the total cell
count. -/
theorem c4_pop_front_offset_not_wrapped :
    custom.pop_front ⟨2, 2, 2, 3, [some [10, 11], some [12, 13]]⟩
        = some ⟨2, 2, 1, 4, [some [10, 11], some [12, 13]]⟩
    ∧ (3 + 1) % (2 * 2) = 0 ∧ (4 : Nat) ≠ (3 + 1) % (2 * 2) := by decide

/-- C5 (refuting the code): assigning a two-element deque (elements `5, 7`)
to a freshly constructed deque must produce an equal, independent copy, but
`operator=` copies nothing (the element-copy loop runs zero times because
the destination is empty, and the overflow loop calls the `push_back` stub),
then claims `numElements = 2` with zero blocks: logical index 0 of the
result is unreadable (`none`) where the source holds `5`. -/
theorem c5_assign_not_deep_copy :
    custom.assign custom.empty0 ⟨2, 1, 2, 0, [some [5, 7]]⟩
        = some ⟨16, 0, 2, 0, []⟩
    ∧ custom.getAt ⟨2, 1, 2, 0, [some [5, 7]]⟩ 0 = some 5
    ∧ custom.getAt ⟨16, 0, 2, 0, []⟩ 0 = none := by decide

/-- C6 (refuting the code): the round-trip property needs `push_back` to
insert, but `push_back` has an empty body: pushing onto the empty deque
leaves it unchanged with size `0`, so popping back the pushed values is a
contract violation and no value is ever returned. -/
theorem c6_push_back_is_stub :
    custom.push_back custom.empty0 7 = custom.empty0
    ∧ custom.size (custom.push_back custom.empty0 7) = 0 := by decide

/-- C10: on any state with a positive block count, whenever the access does
not wrap past the end of the physical array
(`iaFront + i < numBlocks * numCells`), the index-translation helpers of
`src/deque.h` and of `src/unnamed/part_000` agree on the (block, cell)
pair. -/
theorem c10_helpers_agree (d : custom.Deque) (i : Nat) (hb : 0 < d.numBlocks)
    (h : d.iaFront + i < d.numBlocks * d.numCells) :
    custom.ibFromID d i = customH.ibFromID d i
    ∧ custom.icFromID d i = customH.icFromID d i := by
  have hia : custom.iaFromID d i = d.iaFront + i := by
    unfold custom.iaFromID
    exact Nat.mod_eq_of_lt (by rw [Nat.mul_comm]; exact h)
  exact ⟨by unfold custom.ibFromID customH.ibFromID; rw [hia],
         by unfold custom.icFromID customH.icFromID; rw [hia]⟩

/-- Witness for C10 at the concrete state
`⟨numCells 2, 1 block, 0 elements, iaFront 1, no data⟩`, index 0. -/
theorem c10_helpers_agree_witness :
    custom.ibFromID ⟨2, 1, 0, 1, []⟩ 0 = customH.ibFromID ⟨2, 1, 0, 1, []⟩ 0
    ∧ custom.icFromID ⟨2, 1, 0, 1, []⟩ 0 = customH.icFromID ⟨2, 1, 0, 1, []⟩ 0 :=
  c10_helpers_agree ⟨2, 1, 0, 1, []⟩ 0 (by decide) (by decide)

/-- The index of an iterator advanced `k` times is its index plus `k`. -/
theorem incN_id (a : custom.Iter) (k : Nat) :
    (custom.incN a k).id = a.id + k := by
  induction k with
  | zero => simp [custom.incN]
  | succ k ih => simp [custom.incN, custom.iterInc, ih]; ring

/-- Advancing an iterator never changes its deque back-reference. -/
theorem incN_dq (a : custom.Iter) (k : Nat) :
    (custom.incN a k).dq = a.dq := by
  induction k with
  | zero => rfl
  | succ k ih => simp [custom.incN, custom.iterInc, ih]

/-- C7: `begin()` has logical index `0` and `end()` has logical index
`numElements`; `end() - begin() = size()`; after `k` increments the iterator
sits at index `k`, it equals `end()` exactly when `k = size()`, and
dereferencing it reads `operator[](k)` — so the traversal from `begin()` to
`end()` dereferences exactly `size()` elements, visiting logical element `k`
at the `k`-th step. -/
theorem c7_iterator_traversal (d : custom.Deque) (k : Nat) :
    (custom.beginIt d).id = 0
    ∧ (custom.endIt d).id = (custom.size d : Int)
    ∧ custom.iterSub (custom.endIt d) (custom.beginIt d) = (custom.size d : Int)
    ∧ (custom.incN (custom.beginIt d) k).id = (k : Int)
    ∧ (custom.iterEq (custom.incN (custom.beginIt d) k) (custom.endIt d)
        ↔ k = custom.size d)
    ∧ custom.iterDeref (custom.incN (custom.beginIt d) k) = custom.getAt d k := by
  refine ⟨rfl, rfl, by simp [custom.iterSub, custom.endIt, custom.beginIt, custom.size], ?_, ?_, ?_⟩
  · rw [incN_id]; simp [custom.beginIt]
  · unfold custom.iterEq
    rw [incN_id]
    simp [custom.beginIt, custom.endIt, custom.size]
  · unfold custom.iterDeref
    rw [incN_id, incN_dq]
    simp [custom.beginIt]

/-- The block-nulling loop preserves the length of the block-pointer array. -/
theorem nullBlocks_length (n : Nat) (l : List (Option (List Nat))) :
    (custom.nullBlocks n l).length = l.length := by
  induction n with
  | zero => rfl
  | succ n ih => simp [custom.nullBlocks, List.length_set, ih]

/-- Entry-wise description of the block-nulling loop: the first `n` entries
become null, the rest are untouched. -/
theorem nullBlocks_get? (n : Nat) (l : List (Option (List Nat))) (i : Nat) :
    (custom.nullBlocks n l).get? i
      = if i < n ∧ i < l.length then some none else l.get? i := by
  induction n with
  | zero => rw [if_neg (by omega)]; rfl
  | succ n ih =>
    by_cases hin : i = n
    · subst hin
      rw [custom.nullBlocks, List.get?_set_eq, ih]
      by_cases hil : i < l.length
      · rw [if_neg (by omega), if_pos (by omega)]
        rcases List.get?_eq_get hil with h
        rw [h]
        rfl
      · rw [if_neg (by omega), if_neg (by omega), List.get?_eq_none.mpr (by omega)]
        rfl
    · rw [custom.nullBlocks, List.get?_set_ne _ _ (by omega), ih]
      have h2 : (i < n ∧ i < l.length) ↔ (i < n + 1 ∧ i < l.length) := by omega
      rw [if_congr h2 rfl rfl]

/-- Running the block-nulling loop twice is the same as running it once. -/
theorem nullBlocks_idem (n : Nat) (l : List (Option (List Nat))) :
    custom.nullBlocks n (custom.nullBlocks n l) = custom.nullBlocks n l := by
  refine List.ext_get? fun i => ?_
  rw [nullBlocks_get? n (custom.nullBlocks n l) i, nullBlocks_length, nullBlocks_get?]
  by_cases h : i < n ∧ i < l.length
  · simp [h]
  · simp [h]

/-- C9: `clear` on the freshly constructed deque is a literal no-op; after
`clear` the size is `0` on every state; a second `clear` changes nothing
(so `clear` of an already-cleared deque is a no-op — block pointers are
already released, which the specification explicitly permits); and a
subsequent `push_back` behaves exactly as on a freshly constructed deque:
both are the empty-bodied stub and leave their deque unchanged. -/
theorem c9_clear_idempotent (d : custom.Deque) (t u : Nat) :
    custom.clear custom.empty0 = custom.empty0
    ∧ custom.size (custom.clear d) = 0
    ∧ custom.clear (custom.clear d) = custom.clear d
    ∧ custom.push_back (custom.clear d) t = custom.clear d
    ∧ custom.push_back custom.empty0 u = custom.empty0 := by
  refine ⟨by decide, rfl, ?_, rfl, rfl⟩
  simp [custom.clear, nullBlocks_idem]

/-- A write through the cell mapping fails when every block pointer is null. -/
theorem writeCell_of_allNone (d : custom.Deque) (ib ic v : Nat)
    (h : ∀ b ∈ d.data, b = none) :
    custom.writeCell d ib ic v = none := by
  unfold custom.writeCell
  split
  · next blk heq => exact absurd (h _ (List.get?_mem heq)) (by simp)
  · rfl

/-- The block-nulling loop preserves all-null block arrays. -/
theorem nullBlocks_allNone (n : Nat) (l : List (Option (List Nat)))
    (h : ∀ b ∈ l, b = none) : ∀ b ∈ custom.nullBlocks n l, b = none := by
  induction n with
  | zero => exact h
  | succ n ih =>
    intro b hb
    rcases List.mem_or_eq_of_mem_set hb with hb' | hb'
    · exact ih b hb'
    · exact hb'

/-- `reallocate` on an empty deque: the assert passes, the migration branch
is skipped, and the result is the all-null block array of the new size. -/
theorem reallocate_of_empty (d : custom.Deque) (hd : d.numElements = 0)
    (nb : Nat) (hnb : 0 < nb) :
    custom.reallocate d nb
      = some { d with data := List.replicate nb none, numBlocks := nb,
                      iaFront := d.iaFront % d.numCells } := by
  unfold custom.reallocate
  rw [if_pos ⟨hnb, by omega⟩]
  dsimp only
  rw [if_neg (by simp [hd])]

/-- `push_front` fails on any empty deque all of whose block pointers are
null: growth never allocates a block, so the element write dereferences a
null pointer. -/
theorem push_front_of_allNone (s : custom.Deque) (hn : s.numElements = 0)
    (hall : ∀ b ∈ s.data, b = none) (t : Nat) :
    custom.push_front s t = none := by
  unfold custom.push_front
  by_cases hfull : s.numElements = s.numBlocks * s.numCells
  · rw [if_pos hfull, reallocate_of_empty s hn _ (Nat.succ_pos _), Option.some_bind]
    dsimp only
    by_cases hc : (s.numBlocks + 1) * s.numCells = 0
    · rw [if_pos hc]
    · rw [if_neg hc]
      rw [writeCell_of_allNone _ _ _ _ (fun b hb => List.eq_of_mem_replicate hb)]
      rfl
  · rw [if_neg hfull, Option.some_bind]
    dsimp only
    have hcap : ¬ s.numBlocks * s.numCells = 0 := by omega
    rw [if_neg hcap]
    rw [writeCell_of_allNone
      { s with iaFront := (s.iaFront + s.numBlocks * s.numCells - 1) % (s.numBlocks * s.numCells) }
      _ _ _ (fun b hb => hall b hb)]
    rfl

/-- Every state reachable through the public interface of
`src/unnamed/part_000` is empty with every block pointer null: the stubbed
`push_back` inserts nothing and `push_front` always fails on such states
(its growth path never allocates a block), so no element is ever stored. -/
theorem reachable_empty (s : custom.Deque) (h : custom.Reachable s) :
    s.numElements = 0 ∧ ∀ b ∈ s.data, b = none := by
  induction h with
  | init => exact ⟨rfl, by intro b hb; simp [custom.empty0] at hb⟩
  | pushF t hs heq ih =>
    rw [push_front_of_allNone _ ih.1 ih.2] at heq
    exact Option.noConfusion heq
  | pushB t hs ih => exact ih
  | popF hs heq ih =>
    rw [custom.pop_front, if_pos ih.1] at heq
    exact Option.noConfusion heq
  | popB hs heq ih =>
    rw [custom.pop_back, if_pos ih.1] at heq
    exact Option.noConfusion heq
  | clearR hs ih => exact ⟨rfl, nullBlocks_allNone _ _ ih.2⟩
  | assignR hs hr heq ihs ihr =>
    unfold custom.assign at heq
    rw [ihs.1, ihr.1] at heq
    simp only [Nat.min_self, Nat.sub_zero, custom.copyLoop, custom.pushLoop,
      Option.some_bind, Option.map_some'] at heq
    obtain rfl := Option.some.inj heq
    exact ⟨rfl, ihs.2⟩

/-- C1: on every reachable state the element count is bounded by the total
cell capacity (`0 ≤ numElements` holds by the type), and — on every state
whatsoever — the accessors `operator[]`, `front()` and `back()` read through
exactly the claimed mapping: absolute cell `(iaFront + i) %
(numBlocks * numCells)`, block index `absolute / numCells`, cell-in-block
`absolute % numCells`. -/
theorem c1_invariant_and_mapping (s : custom.Deque) (h : custom.Reachable s) (i : Nat) :
    custom.size s ≤ s.numBlocks * s.numCells
    ∧ custom.ibFromID s i
        = ((s.iaFront + i) % (s.numBlocks * s.numCells)) / s.numCells
    ∧ custom.icFromID s i
        = ((s.iaFront + i) % (s.numBlocks * s.numCells)) % s.numCells
    ∧ custom.getAt s i = custom.readCell s (custom.ibFromID s i) (custom.icFromID s i)
    ∧ custom.frontVal s = custom.readCell s (custom.ibFromID s 0) (custom.icFromID s 0)
    ∧ custom.backVal s
        = custom.readCell s (custom.ibFromID s (custom.size s - 1))
            (custom.icFromID s (custom.size s - 1)) := by
  have hmap : custom.iaFromID s i = (s.iaFront + i) % (s.numBlocks * s.numCells) := by
    unfold custom.iaFromID
    rw [Nat.mul_comm]
  refine ⟨?_, ?_, ?_, rfl, rfl, rfl⟩
  · have := (reachable_empty s h).1
    unfold custom.size
    omega
  · unfold custom.ibFromID
    rw [hmap]
  · unfold custom.icFromID
    rw [hmap]

/-- Witness for C1 at the freshly constructed deque and logical index 0. -/
theorem c1_invariant_and_mapping_witness :
    custom.size custom.empty0 ≤ custom.empty0.numBlocks * custom.empty0.numCells
    ∧ custom.ibFromID custom.empty0 0
        = ((custom.empty0.iaFront + 0) % (custom.empty0.numBlocks * custom.empty0.numCells))
            / custom.empty0.numCells
    ∧ custom.icFromID custom.empty0 0
        = ((custom.empty0.iaFront + 0) % (custom.empty0.numBlocks * custom.empty0.numCells))
            % custom.empty0.numCells
    ∧ custom.getAt custom.empty0 0
        = custom.readCell custom.empty0 (custom.ibFromID custom.empty0 0)
            (custom.icFromID custom.empty0 0)
    ∧ custom.frontVal custom.empty0
        = custom.readCell custom.empty0 (custom.ibFromID custom.empty0 0)
            (custom.icFromID custom.empty0 0)
    ∧ custom.backVal custom.empty0
        = custom.readCell custom.empty0
            (custom.ibFromID custom.empty0 (custom.size custom.empty0 - 1))
            (custom.icFromID custom.empty0 (custom.size custom.empty0 - 1)) :=
  c1_invariant_and_mapping custom.empty0 custom.Reachable.init 0

/-- Arithmetic core for C8.  In a circular layout of `T` cells with block
width `c`, front cell `f < T` and `n ≤ T` live elements, if the last
element (logical `n-1`) sits at cell `0` of a block that is not the front
element's block, then no earlier element (logical `i < n-1`) sits in that
block: the last element is alone there, so nulling its block touches no
other element. -/
theorem cell_isolated (c T f n i : Nat) (hc : 0 < c) (hfT : f < T) (hnT : n ≤ T)
    (hi : i + 1 < n)
    (hic : (f + (n - 1)) % T % c = 0)
    (hib : (f + (n - 1)) % T / c ≠ f % T / c) :
    (f + i) % T / c ≠ (f + (n - 1)) % T / c := by
  intro hq
  have hfm : f % T = f := Nat.mod_eq_of_lt hfT
  rw [hfm] at hib
  have hL1 : (f + (n - 1)) % T / c * c = (f + (n - 1)) % T :=
    Nat.div_mul_cancel (Nat.dvd_of_mod_eq_zero hic)
  have hA1 : (f + i) % T / c * c ≤ (f + i) % T := Nat.div_mul_le_self _ c
  have hA2 : (f + i) % T < (f + i) % T / c * c + c := by
    have h1 := Nat.mod_add_div' ((f + i) % T) c
    have h2 := Nat.mod_lt ((f + i) % T) hc
    omega
  rw [hq] at hA1 hA2
  by_cases hw : f + (n - 1) < T
  · have haL : (f + (n - 1)) % T = f + (n - 1) := Nat.mod_eq_of_lt hw
    have hai : (f + i) % T = f + i := Nat.mod_eq_of_lt (by omega)
    omega
  · have hw' : T ≤ f + (n - 1) := by omega
    have haL : (f + (n - 1)) % T = f + (n - 1) - T := by
      rw [Nat.mod_eq_sub_mod hw', Nat.mod_eq_of_lt (by omega)]
    by_cases hwi : f + i < T
    · have hai : (f + i) % T = f + i := Nat.mod_eq_of_lt hwi
      have hfq : f / c = (f + (n - 1)) % T / c :=
        Nat.div_eq_of_lt_le (by omega) (by rw [Nat.succ_mul]; omega)
      exact hib hfq.symm
    · have hai : (f + i) % T = f + i - T := by
        rw [Nat.mod_eq_sub_mod (by omega), Nat.mod_eq_of_lt (by omega)]
      omega

/-- Bridge of `cell_isolated` to the index helpers of `part_000`: under the
data-model invariants, when `pop_back`'s nulling condition holds for a
multi-element deque, no surviving logical index maps into the nulled block. -/
theorem pop_back_block_isolated (d : custom.Deque) (i : Nat)
    (hc : 0 < d.numCells)
    (hfr : d.iaFront < d.numBlocks * d.numCells)
    (hcap : d.numElements ≤ d.numBlocks * d.numCells)
    (hi : i + 1 < d.numElements)
    (hic0 : custom.icFromID d (d.numElements - 1) = 0)
    (hibne : custom.ibFromID d (d.numElements - 1) ≠ custom.ibFromID d 0) :
    custom.ibFromID d i ≠ custom.ibFromID d (d.numElements - 1) := by
  unfold custom.icFromID custom.iaFromID at hic0
  unfold custom.ibFromID custom.iaFromID at hibne ⊢
  rw [Nat.add_zero] at hibne
  exact cell_isolated d.numCells (d.numCells * d.numBlocks) d.iaFront d.numElements i
    hc (by rw [Nat.mul_comm]; exact hfr) (by rw [Nat.mul_comm]; exact hcap)
    hi hic0 hibne

/-- Reads through the index mapping ignore a nulled block other than their
own, and ignore the element count entirely. -/
theorem getAt_set_ne (d : custom.Deque) (b k i : Nat)
    (h : custom.ibFromID d i ≠ b) :
    custom.getAt { d with data := d.data.set b none, numElements := k } i
      = custom.getAt d i := by
  unfold custom.getAt custom.readCell
  have hib : custom.ibFromID { d with data := d.data.set b none, numElements := k } i
      = custom.ibFromID d i := rfl
  have hic : custom.icFromID { d with data := d.data.set b none, numElements := k } i
      = custom.icFromID d i := rfl
  rw [hib, hic]
  dsimp only
  rw [List.get?_set_ne _ _ (Ne.symm h)]

/-- C8: on a non-empty deque satisfying the data-model invariants
(`numElements ≤ numBlocks*numCells`, `iaFront < numBlocks*numCells`),
`pop_back` succeeds, leaves `iaFront` unchanged, decrements `numElements`,
and every surviving logical index reads the same value as before — the
block occasionally nulled by `part_000`'s `pop_back` held only the removed
element.  The `pop_back` of `src/deque.h` decrements `numElements` and
changes nothing else at all. -/
theorem c8_pop_back_frame (d : custom.Deque)
    (hne : 0 < d.numElements)
    (hcap : d.numElements ≤ d.numBlocks * d.numCells)
    (hfr : d.iaFront < d.numBlocks * d.numCells) :
    ∃ d', custom.pop_back d = some d'
      ∧ d'.iaFront = d.iaFront
      ∧ d'.numElements = d.numElements - 1
      ∧ (∀ i, i + 1 < d.numElements → custom.getAt d' i = custom.getAt d i)
      ∧ customH.pop_back d = some { d with numElements := d.numElements - 1 } := by
  have hcap0 : 0 < d.numBlocks * d.numCells := lt_of_lt_of_le hne hcap
  have hc : 0 < d.numCells := by
    rcases Nat.eq_zero_or_pos d.numCells with h0 | h
    · rw [h0, Nat.mul_zero] at hcap0; omega
    · exact h
  have hH : customH.pop_back d = some { d with numElements := d.numElements - 1 } := by
    unfold customH.pop_back
    rw [if_neg (by omega)]
  by_cases hcond : d.numElements = 1 ∨
      (custom.icFromID d (d.numElements - 1) = 0 ∧
       custom.ibFromID d (d.numElements - 1) ≠ custom.ibFromID d 0)
  · have heq : custom.pop_back d
        = some { d with data := d.data.set (custom.ibFromID d (d.numElements - 1)) none,
                        numElements := d.numElements - 1 } := by
      unfold custom.pop_back
      rw [if_neg (by omega)]
      dsimp only
      rw [if_pos hcond]
    refine ⟨_, heq, rfl, rfl, ?_, hH⟩
    intro i hi
    rcases hcond with h1 | ⟨hic0, hibne⟩
    · exact absurd hi (by omega)
    · exact getAt_set_ne d _ _ i (pop_back_block_isolated d i hc hfr hcap hi hic0 hibne)
  · have heq : custom.pop_back d = some { d with numElements := d.numElements - 1 } := by
      unfold custom.pop_back
      rw [if_neg (by omega)]
      dsimp only
      rw [if_neg hcond]
    exact ⟨_, heq, rfl, rfl, fun i hi => rfl, hH⟩

/-- Witness for C8 at the one-element deque
`⟨numCells 2, 1 block, 1 element, iaFront 0, block [4,0]⟩`. -/
theorem c8_pop_back_frame_witness :
    ∃ d', custom.pop_back ⟨2, 1, 1, 0, [some [4, 0]]⟩ = some d'
      ∧ d'.iaFront = (⟨2, 1, 1, 0, [some [4, 0]]⟩ : custom.Deque).iaFront
      ∧ d'.numElements = (⟨2, 1, 1, 0, [some [4, 0]]⟩ : custom.Deque).numElements - 1
      ∧ (∀ i, i + 1 < (⟨2, 1, 1, 0, [some [4, 0]]⟩ : custom.Deque).numElements →
          custom.getAt d' i = custom.getAt ⟨2, 1, 1, 0, [some [4, 0]]⟩ i)
      ∧ customH.pop_back ⟨2, 1, 1, 0, [some [4, 0]]⟩
          = some { (⟨2, 1, 1, 0, [some [4, 0]]⟩ : custom.Deque) with
                    numElements := (⟨2, 1, 1, 0, [some [4, 0]]⟩ : custom.Deque).numElements - 1 } :=
  c8_pop_back_frame ⟨2, 1, 1, 0, [some [4, 0]]⟩ (by decide) (by decide) (by decide)
